import Mathlib

/-!
Verification of the ledger-normalization core of `core/parser_51.py`
(`Card51Parser`): the locale-tolerant numeric/date lexer, transaction
extraction (free-text and tabular paths), the amount-column content
fallback, the chronological balance fold with its daily map, the opening
balance scan, and the periodic-obligation stress test.

Conventions of the shallow embedding:
- Python floats are modelled as rationals (`Rat`); the float `nan` and the
  Python `None` cell are explicit constructors of `Cell`.
- Python dates are modelled as `PDate` (year/month/day as naturals); the
  ordering used by the code (comparison of `datetime.date` values, with
  `dt.date.min = 0001-01-01` substituted for missing dates) is mirrored by
  the order-preserving key `pdateKey y m d = (y * 100 + m) * 100 + d`.
- The regular expressions `NUM_RE`, `DATE_RE` and the two counterparty
  patterns are implemented as explicit scanners with Python `re` semantics
  (leftmost match, greedy quantifiers, `\b` word boundaries over
  ASCII/Cyrillic word characters).
- Python dict writes (`daily[d] = curr`) are modelled by `updAssoc`
  (overwrite-in-place or append), reads by `List.lookup`.
-/

/-- Characters the scanners treat as `\d`. The source only ever feeds
ASCII digits to these regexes. -/
def isDigitCh (c : Char) : Bool := decide ('0' ≤ c) && decide (c ≤ '9')

/-- The non-breaking space ` `, written explicitly in the source. -/
def nbsp : Char := Char.ofNat 160

/-- Characters matched by Python `\s` (and stripped by `str.strip()`):
space, tab, newline, carriage return, vertical tab, form feed and the
non-breaking space; sufficient for the character set the parser handles. -/
def isPySpace (c : Char) : Bool :=
  c == ' ' || c == Char.ofNat 9 || c == Char.ofNat 10 || c == Char.ofNat 13 ||
  c == Char.ofNat 11 || c == Char.ofNat 12 || c == nbsp

/-- Word characters for Python `\b` boundaries: ASCII alphanumerics,
underscore, and the Cyrillic letters used by the source data. -/
def isWordCh (c : Char) : Bool :=
  isDigitCh c || (decide ('a' ≤ c) && decide (c ≤ 'z')) ||
  (decide ('A' ≤ c) && decide (c ≤ 'Z')) || c == '_' ||
  (decide ('а' ≤ c) && decide (c ≤ 'я')) ||
  (decide ('А' ≤ c) && decide (c ≤ 'Я')) || c == 'ё' || c == 'Ё'

/-- Python `str.lower` restricted to the alphabets the source handles:
ASCII A-Z and Cyrillic А-Я (plus Ё). -/
def rlower (c : Char) : Char :=
  if decide ('A' ≤ c) && decide (c ≤ 'Z') then Char.ofNat (c.toNat + 32)
  else if decide ('А' ≤ c) && decide (c ≤ 'Я') then Char.ofNat (c.toNat + 32)
  else if c == 'Ё' then 'ё'
  else c

/-- Python `s.lower()` on a Lean string. -/
def rlowerStr (s : String) : String := (s.toList.map rlower).asString

/-- Prefix test for character lists, by `==`. -/
def isPrefixL : List Char → List Char → Bool
  | [], _ => true
  | _ :: _, [] => false
  | a :: as, b :: bs => a == b && isPrefixL as bs

/-- Python substring containment `needle in hay`. -/
def hasSubstr (hay needle : List Char) : Bool :=
  isPrefixL needle hay ||
    match hay with
    | [] => false
    | _ :: t => hasSubstr t needle

/-- Python `str.strip()`: drop leading and trailing whitespace. -/
def pystrip (s : String) : String :=
  (((s.toList.dropWhile isPySpace).reverse.dropWhile isPySpace).reverse).asString

/-- A cell of the input grid: Python `None`, the float `nan`, a numeric
value, or text.  (Structured date cells never occur in the inputs the
claims quantify over and are left out of the model.) -/
inductive Cell
  | pynone
  | nan
  | num (q : Rat)
  | text (s : String)
deriving DecidableEq, Repr

/-- Python `str(float)` for the integral floats that occur in the data;
non-integral rationals are rendered as `num/den` (never exercised by the
source inputs modelled here, where stringified cells are text or `nan`). -/
def pyFloatStr (q : Rat) : String :=
  if q.den = 1 then toString q.num ++ ".0"
  else toString q.num ++ "/" ++ toString q.den

/-- Python `str(cell)`: `str(None) = "None"`, `str(float("nan")) = "nan"`. -/
def pystr : Cell → String
  | Cell.pynone => "None"
  | Cell.nan => "nan"
  | Cell.num q => pyFloatStr q
  | Cell.text s => s

/-- Digits of a character list read as a natural number (the characters
are guaranteed to be ASCII digits by the callers). -/
def digitsToNat (l : List Char) : Nat :=
  l.foldl (fun n c => n * 10 + (c.toNat - 48)) 0

/-- Python `float()` restricted to the token shapes `-?\d+(\.\d+)?` that
the cleaned `NUM_RE` match can take (other shapes return `none`, the
model of `ValueError`). -/
def parseDecimal (l : List Char) : Option Rat :=
  let (neg, l') := match l with
    | '-' :: r => (true, r)
    | _ => (false, l)
  let ip := l'.takeWhile isDigitCh
  let rest := l'.dropWhile isDigitCh
  let val? : Option Rat :=
    match rest with
    | [] => if ip.isEmpty then none else some ((digitsToNat ip : Nat) : Rat)
    | '.' :: fr =>
      if fr.all isDigitCh && (!ip.isEmpty || !fr.isEmpty) then
        some ((digitsToNat ip : Nat) + (digitsToNat fr : Nat) / ((10 : Rat) ^ fr.length))
      else none
    | _ => none
  val?.map (fun x => if neg then -x else x)

/-!
`NUM_RE = \(?-?\d{1,3}(?:[  ]\d{3})*(?:[.,]\d+)?\)?`

The scanner below reproduces `re.search` for this pattern: positions are
tried left to right; at a position the optional `\(` and `-` are consumed
greedily (with backtracking into the optionals), then one to three digits
greedily, then whole `sep + 3 digits` groups, then an optional decimal
part, then an optional `)`.  Since everything after `\d{1,3}` can match
the empty string, the greedy attempt never needs to backtrack past it.
-/

/-- Greedy `(?:[  ]\d{3})*`: consume whole groups of a space (or
non-breaking space) followed by exactly three digits. -/
def takeGroups : List Char → List Char × List Char
  | s :: d1 :: d2 :: d3 :: rest =>
    if (s == ' ' || s == nbsp) && isDigitCh d1 && isDigitCh d2 && isDigitCh d3 then
      let (g, r) := takeGroups rest
      (s :: d1 :: d2 :: d3 :: g, r)
    else ([], s :: d1 :: d2 :: d3 :: rest)
  | l => ([], l)

/-- Greedy `(?:[.,]\d+)?`. -/
def takeDec : List Char → List Char × List Char
  | p :: d :: rest =>
    if (p == '.' || p == ',') && isDigitCh d then
      (p :: (d :: rest).takeWhile isDigitCh, (d :: rest).dropWhile isDigitCh)
    else ([], p :: d :: rest)
  | l => ([], l)

/-- Match `\d{1,3}(?:[  ]\d{3})*(?:[.,]\d+)?` at the head of `l`;
returns the matched characters and the remaining suffix. -/
def matchFromDigits (l : List Char) : Option (List Char × List Char) :=
  let ds := (l.takeWhile isDigitCh).take 3
  if ds.isEmpty then none
  else
    let rest := l.drop ds.length
    let (g, rest2) := takeGroups rest
    let (dec, rest3) := takeDec rest2
    some (ds ++ g ++ dec, rest3)

/-- Append the optional closing `\)?`. -/
def closeParen (m : List Char) (rest : List Char) : List Char :=
  match rest with
  | ')' :: _ => m ++ [')']
  | _ => m

/-- Attempt a `NUM_RE` match anchored at the head of `l`. -/
def numMatchAt (l : List Char) : Option (List Char) :=
  match l with
  | '(' :: rest =>
    match rest with
    | '-' :: rest2 =>
      match matchFromDigits rest2 with
      | some (m, r) => some (closeParen ('(' :: '-' :: m) r)
      | none =>
        -- backtrack `-?`: digits would have to start at the minus sign
        match matchFromDigits rest with
        | some (m, r) => some (closeParen ('(' :: m) r)
        | none => none
    | _ =>
      match matchFromDigits rest with
      | some (m, r) => some (closeParen ('(' :: m) r)
      | none => none
  | '-' :: rest =>
    match matchFromDigits rest with
    | some (m, r) => some (closeParen ('-' :: m) r)
    | none => none
  | l' =>
    match matchFromDigits l' with
    | some (m, r) => some (closeParen m r)
    | none => none

/-- Search `NUM_RE.search`: leftmost match wins. -/
def numSearch : List Char → Option (List Char)
  | [] => none
  | c :: rest =>
    match numMatchAt (c :: rest) with
    | some m => some m
    | none => numSearch rest

/-- Whether a cell string looks like money:
`NUM_RE.search(x.replace(" ", " ")) is not None`. -/
def cellHasNum (x : String) : Bool :=
  (numSearch ((x.toList).map (fun c => if c == nbsp then ' ' else c))).isSome

/-- The function `_num_to_float` of `core/parser_51.py`:
`None`/`nan` pass to `None`; numeric input passes through as a float;
text is stripped, searched with `NUM_RE` (after replacing non-breaking
spaces with spaces), the parenthesized-negative form is detected, the
match is cleaned of parentheses and spaces, the comma becomes a decimal
point, and the result is parsed (`None` on failure). -/
def numToFloat : Cell → Option Rat
  | Cell.pynone => none
  | Cell.nan => none
  | Cell.num q => some q
  | Cell.text s0 =>
    let s := pystrip s0
    if s = "" then none
    else
      match numSearch ((s.toList).map (fun c => if c == nbsp then ' ' else c)) with
      | none => none
      | some val =>
        let neg := val.head? == some '(' && val.getLast? == some ')'
        let cleaned := val.filter
          (fun c => !(c == '(' || c == ')' || c == ' ' || c == nbsp))
        let cleaned := cleaned.map (fun c => if c == ',' then '.' else c)
        match parseDecimal cleaned with
        | none => none
        | some x => some (if neg then -x else x)

/-!  Dates: `DATE_RE = \b\d{2}\.\d{2}\.\d{4}\b` and `strptime("%d.%m.%Y")`. -/

/-- A Python `datetime.date` value. -/
structure PDate where
  y : Nat
  m : Nat
  d : Nat
deriving DecidableEq, Repr

/-- The value `dt.date.min = 0001-01-01`, the sentinel the code substitutes for a
missing date. -/
def pdateMin : PDate := ⟨1, 1, 1⟩

/-- Order-preserving numeric key of a date (valid dates have
`m ≤ 12 ≤ 99` and `d ≤ 31 ≤ 99`, so lexicographic comparison of
`datetime.date` values coincides with comparison of these keys). -/
def pdateKey (p : PDate) : Nat := (p.y * 100 + p.m) * 100 + p.d

/-- Decimal value of exactly-n-digit character runs. -/
def twoDigits (a b : Char) : Nat := (a.toNat - 48) * 10 + (b.toNat - 48)

/-- Match `\d{2}\.\d{2}\.\d{4}\b` anchored at the head (the `\b` before
the match is checked by the scanner). Returns `(day, month, year)`. -/
def dateMatchAt : List Char → Option (Nat × Nat × Nat)
  | d1 :: d2 :: p1 :: m1 :: m2 :: p2 :: y1 :: y2 :: y3 :: y4 :: rest =>
    if isDigitCh d1 && isDigitCh d2 && p1 == '.' && isDigitCh m1 && isDigitCh m2 &&
        p2 == '.' && isDigitCh y1 && isDigitCh y2 && isDigitCh y3 && isDigitCh y4 &&
        (match rest with | [] => true | c :: _ => !isWordCh c) then
      some (twoDigits d1 d2, twoDigits m1 m2,
        digitsToNat [y1, y2, y3, y4])
    else none
  | _ => none

/-- Search `DATE_RE.search`: scan positions left to right, requiring a word
boundary before the first digit (`prev` is the previous character). -/
def dateSearchAux : Option Char → List Char → Option (Nat × Nat × Nat)
  | _, [] => none
  | prev, c :: rest =>
    if (match prev with | none => true | some p => !isWordCh p) then
      match dateMatchAt (c :: rest) with
      | some r => some r
      | none => dateSearchAux (some c) rest
    else dateSearchAux (some c) rest

def dateSearch (l : List Char) : Option (Nat × Nat × Nat) := dateSearchAux none l

/-- Gregorian month length, as validated by `strptime`. -/
def daysInMonth (y m : Nat) : Nat :=
  if m = 2 then (if y % 4 = 0 && (y % 100 != 0 || y % 400 = 0) then 29 else 28)
  else if m = 4 || m = 6 || m = 9 || m = 11 then 30
  else 31

/-- Model of `dt.datetime.strptime(tok, "%d.%m.%Y").date()` — `None` on
`ValueError` (month/day out of range, or the year 0000). -/
def strptimeDMY (d m y : Nat) : Option PDate :=
  if 1 ≤ y && 1 ≤ m && m ≤ 12 && 1 ≤ d && d ≤ daysInMonth y m then some ⟨y, m, d⟩
  else none

/-- The text part of `_parse_date`: search `DATE_RE`, then `strptime`. -/
def parseDateText (s : String) : Option PDate :=
  match dateSearch s.toList with
  | none => none
  | some (d, m, y) => strptimeDMY d m y

/-- The function `_parse_date` on a cell: `None` passes through; other cells are
stringified and searched.  (Structured date cells do not occur in the
modelled inputs.) -/
def parseDateCell : Cell → Option PDate
  | Cell.pynone => none
  | c => parseDateText (pystr c)

/-!  The free-text counterparty cascade of `_extract_counterparty_free`. -/

/-- Match `\b\d{10}\b|\b\d{12}\b` anchored at the head (caller checks the
left boundary): try the 10-digit alternative first, then the 12-digit
one, each requiring a right word boundary. -/
def innMatchAt (l : List Char) : Option (List Char) :=
  let r10 := l.take 10
  let r12 := l.take 12
  if r10.length = 10 && r10.all isDigitCh &&
      (match l.drop 10 with | [] => true | c :: _ => !isWordCh c) then some r10
  else if r12.length = 12 && r12.all isDigitCh &&
      (match l.drop 12 with | [] => true | c :: _ => !isWordCh c) then some r12
  else none

/-- Search `re.search(r"\b\d{10}\b|\b\d{12}\b", t)`: leftmost position wins. -/
def innSearchAux : Option Char → List Char → Option (List Char)
  | _, [] => none
  | prev, c :: rest =>
    if (match prev with | none => true | some p => !isWordCh p) then
      match innMatchAt (c :: rest) with
      | some r => some r
      | none => innSearchAux (some c) rest
    else innSearchAux (some c) rest

def innSearch (l : List Char) : Option (List Char) := innSearchAux none l

/-- The character class `[A-Za-zА-Яа-я0-9\"«»'\-\s]` of the legal-entity
pattern (note: it contains `\s` itself, and the IGNORECASE flag adds no
further characters to it). -/
def isOrgClass (c : Char) : Bool :=
  (decide ('A' ≤ c) && decide (c ≤ 'Z')) || (decide ('a' ≤ c) && decide (c ≤ 'z')) ||
  (decide ('А' ≤ c) && decide (c ≤ 'Я')) || (decide ('а' ≤ c) && decide (c ≤ 'я')) ||
  isDigitCh c || c == '"' || c == Char.ofNat 39 || c == '«' || c == '»' ||
  c == '-' || isPySpace c

/-- Case-insensitive match of one of the alternatives `ООО|ЗАО|АО|ИП`
anchored at the head; the lowercased first characters of the
alternatives are pairwise distinct, so at most one can apply.  Returns
the consumed characters (original case) and the rest. -/
def orgPrefixAt (l : List Char) : Option (List Char × List Char) :=
  let low := l.map rlower
  if isPrefixL "ооо".toList low then some (l.take 3, l.drop 3)
  else if isPrefixL "зао".toList low then some (l.take 3, l.drop 3)
  else if isPrefixL "ао".toList low then some (l.take 2, l.drop 2)
  else if isPrefixL "ип".toList low then some (l.take 2, l.drop 2)
  else none

/-- Match `(ООО|ЗАО|АО|ИП)\s+[A-Za-zА-Яа-я0-9\"«»'\-\s]{2,}` (IGNORECASE)
anchored at the head.  After the prefix, `\s+` consumes `w ≥ 1` spaces
greedily and the class run extends to the same endpoint however much of
the whitespace `\s+` keeps, so the match succeeds iff
`(w - 1) + (length of the class run after the spaces) ≥ 2`, and the span
always ends at that endpoint. -/
def orgMatchAt (l : List Char) : Option (List Char) :=
  match orgPrefixAt l with
  | none => none
  | some (pre, rest) =>
    let w := rest.takeWhile isPySpace
    let rest2 := rest.drop w.length
    let run := rest2.takeWhile isOrgClass
    if decide (1 ≤ w.length) && decide (2 ≤ w.length - 1 + run.length) then
      some (pre ++ w ++ run)
    else none

/-- Leftmost search for the legal-entity pattern (it has no `\b`). -/
def orgSearch : List Char → Option (List Char)
  | [] => none
  | c :: rest =>
    match orgMatchAt (c :: rest) with
    | some r => some r
    | none => orgSearch rest

/-- The cascade `_extract_counterparty_free`: first a 10/12-digit taxpayer-ID token,
labelled `"ИНН <digits>"`; else a legal-entity span, stripped; else
`None`. -/
def extractCounterpartyFree (text : String) : Option String :=
  match innSearch text.toList with
  | some ds => some ("ИНН " ++ ds.asString)
  | none =>
    match orgSearch text.toList with
    | some span => some (pystrip span.asString)
    | none => none

/-- The function `_normalize_counterparty`: strip; empty becomes `None`.  (The
function also computes a lowercased variant of the string, but never
uses it — the returned value is just the stripped input.) -/
def normalizeCounterparty (s : String) : Option String :=
  let s' := pystrip s
  if s' = "" then none else some s'

/-!  Canonical transactions and the two extraction paths of
`_extract_transactions`. -/

/-- A canonical transaction record. -/
structure Txn where
  date : Option PDate
  debit : Option Rat
  credit : Option Rat
  balance : Option Rat
  counterparty : Option String
  description : Option String
deriving DecidableEq, Repr

/-- Python truthiness of an optional float: `None` and `0.0` are falsy. -/
def truthyR : Option Rat → Bool
  | none => false
  | some x => decide (x ≠ 0)

/-- Python truthiness of an optional string: `None` and `""` are falsy. -/
def truthyS : Option String → Bool
  | none => false
  | some s => decide (s ≠ "")

/-- Python `str(x)[:500]`. -/
def strTake500 (s : String) : String := (s.toList.take 500).asString

/-- One line of the single-column free-text path: date lexed from the
whole line; debit/credit lexed from the whole line only when the line
mentions the debit/credit keyword; counterparty via the free-text
cascade; description is the line truncated to 500 characters. -/
def rowFieldsFree (line : String) : Txn :=
  { date := parseDateText line
    debit := if hasSubstr (rlowerStr line).toList "деб".toList
             then numToFloat (Cell.text line) else none
    credit := if hasSubstr (rlowerStr line).toList "кред".toList
              then numToFloat (Cell.text line) else none
    balance := none
    counterparty := extractCounterpartyFree line
    description := some (strTake500 line) }

/-- The keep-filter of the free-text path:
`any([t["date"], t["debit"], t["credit"], t["counterparty"]])` — Python
truthiness, and neither `balance` nor `description` is consulted. -/
def keepFree (t : Txn) : Bool :=
  t.date.isSome || truthyR t.debit || truthyR t.credit || truthyS t.counterparty

/-- The free-text path returns the filtered rows directly (the sort at
the end of `_extract_transactions` is after an early `return` and is
not reached on this path). -/
def extractTransactionsFree (lines : List String) : List Txn :=
  (lines.map rowFieldsFree).filter keepFree

/-- A column-role map with roles resolved to column positions
(`None` = unresolved), mirroring the `colmap` dictionary. -/
structure Colmap where
  date : Option Nat
  debit : Option Nat
  credit : Option Nat
  balance : Option Nat
  counterparty : Option Nat
  description : Option Nat
deriving DecidableEq, Repr

/-- The cell of an assigned column in a row (`None` when the role is
unresolved; the code looks the column name up in `df.columns`, which for
an index model is `row.get?`). -/
def getCol (c : Option Nat) (row : List Cell) : Option Cell :=
  match c with
  | none => none
  | some i => row.get? i

/-- Python `" ".join(map(str, df.iloc[i].tolist()))`. -/
def joinRow (row : List Cell) : String :=
  String.intercalate " " (row.map pystr)

/-- One data row of the tabular path, before the empty-row filter. -/
def rowFieldsTab (cm : Colmap) (row : List Cell) : Txn :=
  let date := match getCol cm.date row with
    | some c => parseDateCell c
    | none => parseDateText (joinRow row)
  let debit := (getCol cm.debit row).bind numToFloat
  let credit := (getCol cm.credit row).bind numToFloat
  let balance := (getCol cm.balance row).bind numToFloat
  let cp0 := match getCol cm.counterparty row with
    | some c => normalizeCounterparty (pystr c)
    | none => none
  let cp := match cp0 with
    | some s => some s
    | none =>
      match getCol cm.description row with
      | some c => extractCounterpartyFree (pystr c)
      | none => none
  let description := (getCol cm.description row).map (fun c => strTake500 (pystr c))
  { date := date, debit := debit, credit := credit, balance := balance,
    counterparty := cp, description := description }

/-- The empty-row filter of the tabular path:
`any([date, debit, credit, balance, counterparty, description])` —
again Python truthiness. -/
def keepTab (t : Txn) : Bool :=
  t.date.isSome || truthyR t.debit || truthyR t.credit || truthyR t.balance ||
  truthyS t.counterparty || truthyS t.description

/-- The sort key `x["date"] or dt.date.min` of a transaction. -/
def dateKeyT (t : Txn) : Nat := pdateKey (t.date.getD pdateMin)

/-- The comparison used by the final `txns.sort`. -/
def txnLe (a b : Txn) : Prop := dateKeyT a ≤ dateKeyT b

instance : DecidableRel txnLe := fun _ _ => Nat.decLe _ _

instance : IsTotal Txn txnLe := ⟨fun _ _ => Nat.le_total _ _⟩

instance : IsTrans Txn txnLe := ⟨fun _ _ _ => Nat.le_trans⟩

/-- The tabular path: row records, the empty-row filter, then the stable
`txns.sort(key=lambda x: x["date"] or dt.date.min)` (Python sorts are
stable, so a stable insertion sort yields the identical list). -/
def extractTransactionsTab (cm : Colmap) (rows : List (List Cell)) : List Txn :=
  List.insertionSort txnLe ((rows.map (rowFieldsTab cm)).filter keepTab)

/-!  `_guess_amount_cols`: the content fallback for the debit/credit
roles.  The credit-column preference is written

  `next((c for c in cands if any(p in c.lower() for p in [prefer[1], "кт"] and c != dcol)), None)`

in the source: the iterable of the inner generator expression is the
expression `[prefer[1], "кт"] and c != dcol`, which evaluates to the
boolean `c != dcol`; creating that generator calls `iter` on a `bool`
and raises a `TypeError` (bool object is not iterable).  The condition is
evaluated lazily by `next`, so the exception fires exactly when `cands`
is non-empty; with `cands` empty the `next` returns `None` and the
subsequent positional fallbacks are no-ops. -/

/-- Stable descending sort by score (`list.sort(key=..., reverse=True)`). -/
def scoreGe (a b : String × Nat) : Prop := b.2 ≤ a.2

instance : DecidableRel scoreGe := fun _ _ => Nat.decLe _ _

/-- Result of a Python call that may raise. -/
inductive PyResult (A : Type)
  | ok (a : A)
  | raised (msg : String)
deriving DecidableEq, Repr

/-- The fallback `_guess_amount_cols` over the sampled columns (name, stringified
cells); `PyResult.raised` models the raised `TypeError`. -/
def guessAmountCols (sample : List (String × List String)) (prefer : String × String) :
    PyResult (Option String × Option String) :=
  let cand := sample.filterMap (fun p =>
    let score := (p.2.filter cellHasNum).length
    if 0 < score then some (p.1, score) else none)
  let cand := List.insertionSort scoreGe cand
  let cands := (cand.take 3).map Prod.fst
  let dcol := cands.find? (fun c =>
    hasSubstr (rlowerStr c).toList (rlowerStr prefer.1).toList ||
    hasSubstr (rlowerStr c).toList "дт".toList)
  match cands with
  | [] =>
    -- `next` never evaluates the broken condition; `dcol` is `None`
    -- here (found among no candidates), and both positional fallbacks
    -- (`len(cands) >= 1`, `len(cands) >= 2`) are vacuous.
    PyResult.ok (dcol, none)
  | _ :: _ => PyResult.raised "TypeError: bool object is not iterable"

/-!  `_analyze_balances`: opening-balance scan, chronological fold with
the day-indexed running balance, and the stress test. -/

/-- Whether a transaction's description carries an opening/incoming
marker: `t.get("description")` truthy and a marker substring of its
lowercasing. -/
def isOpeningDesc (t : Txn) : Bool :=
  match t.description with
  | none => false
  | some s =>
    decide (s ≠ "") &&
    (hasSubstr (rlowerStr s).toList "входящий".toList ||
     hasSubstr (rlowerStr s).toList "начальн".toList)

/-- Opening balance: the first of the first five transactions whose
description is marked supplies its declared balance, else its
`(debit or 0) - (credit or 0)`; with no marked transaction the opening
is `0`. -/
def computeOpening (txns : List Txn) : Rat :=
  match (txns.take 5).find? isOpeningDesc with
  | some t =>
    match t.balance with
    | some b => b
    | none => t.debit.getD 0 - t.credit.getD 0
  | none => 0

/-- Python dict write `m[k] = v`: overwrite in place or append. -/
def updAssoc (m : List (Nat × Rat)) (k : Nat) (v : Rat) : List (Nat × Rat) :=
  match m with
  | [] => [(k, v)]
  | (k', v') :: rest => if k' = k then (k, v) :: rest else (k', v') :: updAssoc rest k v

/-- One step of the balance fold: trust a declared balance, otherwise
add the debit and subtract the credit when they are truthy, then write
`daily[t.date or dt.date.min] = curr`. -/
def balStep (st : Rat × List (Nat × Rat)) (t : Txn) : Rat × List (Nat × Rat) :=
  let curr :=
    match t.balance with
    | some b => b
    | none =>
      let c1 := match t.debit with
        | some d => if d ≠ 0 then st.1 + d else st.1
        | none => st.1
      match t.credit with
      | some c => if c ≠ 0 then c1 - c else c1
      | none => c1
  (curr, updAssoc st.2 (dateKeyT t) curr)

/-- The running-balance fold of `_analyze_balances`: running value and
daily map after folding the transactions from the opening balance. -/
def balFold (opening : Rat) (txns : List Txn) : Rat × List (Nat × Rat) :=
  txns.foldl balStep (opening, [])

/-- A stress-test record for one period. -/
structure StressEntry where
  end_balance_after_payment : Rat
  shortfall : Rat
  default_risk : Bool
deriving DecidableEq, Repr

/-- The stress test: only when `monthly_payment` is truthy and positive;
periods with a `None` month-end balance are skipped; for each balance
`b`, `after = b - payment`, `shortfall = -after if after < 0 else 0.0`,
`default_risk = after < 0`. -/
def stressTest (monthlyPayment : Rat) (byMonthEnd : List (String × Option Rat)) :
    List (String × StressEntry) :=
  if monthlyPayment ≠ 0 ∧ 0 < monthlyPayment then
    byMonthEnd.filterMap (fun p =>
      match p.2 with
      | none => none
      | some b =>
        let after := b - monthlyPayment
        some (p.1, { end_balance_after_payment := after
                     shortfall := if after < 0 then -after else 0
                     default_risk := decide (after < 0) }))
  else []

/-- Positional transaction constructor for concrete instances. -/
def mkTxn (d : Option PDate) (deb cred bal : Option Rat)
    (cp desc : Option String) : Txn :=
  { date := d, debit := deb, credit := cred, balance := bal,
    counterparty := cp, description := desc }

/-!  Helper lemmas. -/

/-- Spec-side formula (used to state the reconciliation claims): the sum
of `debit or 0` over a transaction list. -/
def specSumDebit (txns : List Txn) : Rat := (txns.map (fun t => t.debit.getD 0)).sum

/-- Spec-side formula: the sum of `credit or 0` over a transaction list. -/
def specSumCredit (txns : List Txn) : Rat := (txns.map (fun t => t.credit.getD 0)).sum

theorem specSumDebit_append (l₁ l₂ : List Txn) :
    specSumDebit (l₁ ++ l₂) = specSumDebit l₁ + specSumDebit l₂ := by
  simp [specSumDebit]

theorem specSumCredit_append (l₁ l₂ : List Txn) :
    specSumCredit (l₁ ++ l₂) = specSumCredit l₁ + specSumCredit l₂ := by
  simp [specSumCredit]

theorem specSumDebit_cons (t : Txn) (l : List Txn) :
    specSumDebit (t :: l) = t.debit.getD 0 + specSumDebit l := by
  simp [specSumDebit]

theorem specSumCredit_cons (t : Txn) (l : List Txn) :
    specSumCredit (t :: l) = t.credit.getD 0 + specSumCredit l := by
  simp [specSumCredit]

/-- The truthiness-conditional updates of `balStep` compute exactly
`balance if declared else prev + (debit or 0) - (credit or 0)`. -/
theorem balStep_fst (st : Rat × List (Nat × Rat)) (t : Txn) :
    (balStep st t).1 = t.balance.getD (st.1 + t.debit.getD 0 - t.credit.getD 0) := by
  rcases t with ⟨date, deb, cred, bal, cp, desc⟩
  cases bal <;> cases deb <;> cases cred <;>
    dsimp only [balStep, Option.getD] <;> try split_ifs <;> simp_all
  all_goals try ring

/-- The second component of `balStep` writes the running value at the
transaction key. -/
theorem balStep_snd (st : Rat × List (Nat × Rat)) (t : Txn) :
    (balStep st t).2 = updAssoc st.2 (dateKeyT t) (balStep st t).1 := rfl

/-- With no declared balances, the fold accumulates the debit/credit
deltas on top of the starting value. -/
theorem foldl_balStep_fst_of_no_balance :
    ∀ (txns : List Txn) (st : Rat × List (Nat × Rat)),
      (∀ u ∈ txns, u.balance = none) →
      (txns.foldl balStep st).1 = st.1 + specSumDebit txns - specSumCredit txns
  | [], st, _ => by simp [specSumDebit, specSumCredit]
  | t :: rest, st, h => by
    have ht : t.balance = none := h t (by simp)
    have ih := foldl_balStep_fst_of_no_balance rest (balStep st t)
      (fun u hu => h u (by simp [hu]))
    rw [List.foldl_cons, ih, balStep_fst, ht, Option.getD_none,
      specSumDebit_cons, specSumCredit_cons]
    ring

/-- A Python dict write makes the written key readable. -/
theorem lookup_updAssoc (m : List (Nat × Rat)) (k : Nat) (v : Rat) :
    List.lookup k (updAssoc m k v) = some v := by
  induction m with
  | nil => simp [updAssoc, List.lookup]
  | cons p rest ih =>
    rcases p with ⟨k', v'⟩
    by_cases h : k' = k
    · subst h
      simp [updAssoc, List.lookup]
    · rw [updAssoc, if_neg h, List.lookup]
      have : (k == k') = false := by
        simp [Ne.symm h]
      rw [this]
      exact ih

/-- Running `find?` over a list whose prefix fails the predicate finds the first
satisfying element. -/
theorem find?_prefix_none {p : Txn → Bool} :
    ∀ (l : List Txn) (t : Txn) (rest : List Txn),
      (∀ u ∈ l, p u = false) → p t = true →
      List.find? p (l ++ t :: rest) = some t
  | [], t, rest, _, ht => by simp [List.find?_cons, ht]
  | u :: l, t, rest, hl, ht => by
    have hu : p u = false := hl u (by simp)
    rw [List.cons_append, List.find?_cons, hu]
    exact find?_prefix_none l t rest (fun v hv => hl v (by simp [hv])) ht

theorem truthyR_eq_true {o : Option Rat} :
    truthyR o = true ↔ ∃ x, o = some x ∧ x ≠ 0 := by
  cases o <;> simp [truthyR]

theorem truthyS_eq_true {o : Option String} :
    truthyS o = true ↔ ∃ s, o = some s ∧ s ≠ "" := by
  cases o <;> simp [truthyS]

/-- The tabular keep-filter, characterized as a proposition: at least
one field is truthy. -/
theorem keepTab_eq_true {t : Txn} :
    keepTab t = true ↔
      (t.date ≠ none ∨ (∃ x, t.debit = some x ∧ x ≠ 0) ∨
       (∃ x, t.credit = some x ∧ x ≠ 0) ∨ (∃ x, t.balance = some x ∧ x ≠ 0) ∨
       (∃ s, t.counterparty = some s ∧ s ≠ "") ∨
       (∃ s, t.description = some s ∧ s ≠ "")) := by
  simp only [keepTab, Bool.or_eq_true, truthyR_eq_true, truthyS_eq_true,
    Option.isSome_iff_ne_none, or_assoc]

/-- The free-text keep-filter, characterized as a proposition (neither
`balance` nor `description` is consulted there). -/
theorem keepFree_eq_true {t : Txn} :
    keepFree t = true ↔
      (t.date ≠ none ∨ (∃ x, t.debit = some x ∧ x ≠ 0) ∨
       (∃ x, t.credit = some x ∧ x ≠ 0) ∨
       (∃ s, t.counterparty = some s ∧ s ≠ "")) := by
  simp only [keepFree, Bool.or_eq_true, truthyR_eq_true, truthyS_eq_true,
    Option.isSome_iff_ne_none, or_assoc]

/-- Inserting an element whose key is `k` in front of the skipped
smaller-key prefix leaves the `key = k` subsequence prefixed by it. -/
theorem filter_orderedInsert_key_pos (k : Nat) (a : Txn) (l : List Txn)
    (ha : dateKeyT a = k) :
    (List.orderedInsert txnLe a l).filter (fun t => decide (dateKeyT t = k))
      = a :: l.filter (fun t => decide (dateKeyT t = k)) := by
  induction l with
  | nil => simp [ha]
  | cons b bs ih =>
    rw [List.orderedInsert]
    by_cases h : txnLe a b
    · rw [if_pos h, List.filter_cons, List.filter_cons]
      simp [ha]
    · have hb : ¬ dateKeyT b = k := by
        have hlt : dateKeyT b < dateKeyT a := Nat.lt_of_not_le h
        omega
      rw [if_neg h, List.filter_cons, List.filter_cons, if_neg (by simp [hb]),
        if_neg (by simp [hb])]
      exact ih

/-- Inserting an element whose key is not `k` leaves the `key = k`
subsequence unchanged. -/
theorem filter_orderedInsert_key_neg (k : Nat) (a : Txn) (l : List Txn)
    (ha : ¬ dateKeyT a = k) :
    (List.orderedInsert txnLe a l).filter (fun t => decide (dateKeyT t = k))
      = l.filter (fun t => decide (dateKeyT t = k)) := by
  induction l with
  | nil => simp [ha]
  | cons b bs ih =>
    rw [List.orderedInsert]
    by_cases h : txnLe a b
    · rw [if_pos h, List.filter_cons, if_neg (by simp [ha])]
    · rw [if_neg h, List.filter_cons, List.filter_cons]
      by_cases hb : dateKeyT b = k
      · rw [if_pos (by simp [hb]), if_pos (by simp [hb]), ih]
      · rw [if_neg (by simp [hb]), if_neg (by simp [hb]), ih]

/-- Stability of the final sort: for every key, the subsequence of
transactions with that key is exactly the one of the unsorted list. -/
theorem filter_insertionSort_key (k : Nat) (l : List Txn) :
    (List.insertionSort txnLe l).filter (fun t => decide (dateKeyT t = k))
      = l.filter (fun t => decide (dateKeyT t = k)) := by
  induction l with
  | nil => rfl
  | cons a l ih =>
    rw [List.insertionSort]
    by_cases ha : dateKeyT a = k
    · rw [filter_orderedInsert_key_pos k a _ ha, ih, List.filter_cons,
        if_pos (by simp [ha])]
    · rw [filter_orderedInsert_key_neg k a _ ha, ih, List.filter_cons,
        if_neg (by simp [ha])]

/-!  Claim theorems. -/

/-- C7: the numeric lexer is total by construction (`numToFloat` is a
total function into `Option Rat`, so every cell yields a float or
null and no exception path exists); non-text numeric input passes
through unchanged as a float; `None` and `nan` yield null; text is
normalized (whitespace and non-breaking spaces removed, the comma
becomes a decimal point, a number token is isolated by the digit-group
regex), so `" 1 234,56 "` parses to `1234.56`; the parenthesized form
`"(1 000)"` yields `-1000.0`; and inputs where lexing fails (no number
token, or blank after stripping) yield null. -/
theorem c7_numeric_lexer_total :
    (∀ q : Rat, numToFloat (Cell.num q) = some q)
    ∧ numToFloat Cell.pynone = none
    ∧ numToFloat Cell.nan = none
    ∧ numToFloat (Cell.text "(1 000)") = some (-1000)
    ∧ numToFloat (Cell.text " 1 234,56 ") = some (123456 / 100)
    ∧ numToFloat (Cell.text "abc") = none
    ∧ numToFloat (Cell.text "   ") = none := by
  refine ⟨fun q => rfl, rfl, rfl, by decide, ?_, by decide, by decide⟩
  have h : numToFloat (Cell.text " 1 234,56 ")
      = some (((1234 : Nat) : Rat) + ((56 : Nat) : Rat) / (10 : Rat) ^ (2 : Nat)) := rfl
  rw [h]
  norm_num

/-- C3 (code bug): whenever at least one sampled column contains a
currency-like cell, the credit-preference expression of
`_guess_amount_cols` iterates over the boolean `[prefer[1], "кт"] and
c != dcol` and raises `TypeError`, so the content fallback crashes
instead of assigning the two highest-ranked columns; only a sample with
no currency-like column returns (and then returns no assignment). -/
theorem c3_guess_amount_cols_crashes :
    guessAmountCols [("col_0", ["100"])] ("дебет", "кредит")
      = PyResult.raised "TypeError: bool object is not iterable"
    ∧ guessAmountCols [("col_0", ["abc"]), ("col_1", ["xyz"])] ("дебет", "кредит")
      = PyResult.ok (none, none) := by
  exact ⟨by decide, by decide⟩

/-- C5 counterexample: on the specified scenario line the cascade
labels the taxpayer-ID match `"ИНН 7701234567"` (the Russian
abbreviation from the source), not the transliterated `"ID 7701234567"`
stated by the claim. -/
theorem c5_counterexample_id_label :
    extractCounterpartyFree "Поступление от ИНН 7701234567 за услуги"
      = some "ИНН 7701234567"
    ∧ extractCounterpartyFree "Поступление от ИНН 7701234567 за услуги"
      ≠ some "ID 7701234567" := by
  exact ⟨by decide, by decide⟩

/-- C5 (amended): the free-text cascade first searches for a 10- or
12-digit taxpayer-ID token and labels it `"ИНН <digits>"`; only when
that fails does it search for a legal-entity-prefix token followed by
at least two characters of name text, returning the matched span
stripped of surrounding whitespace; with no match the result is null.
The taxpayer-ID strategy wins even when a legal-entity prefix occurs
earlier in the line. -/
theorem c5_counterparty_cascade_amended :
    extractCounterpartyFree "Поступление от ИНН 7701234567 за услуги"
      = some "ИНН 7701234567"
    ∧ extractCounterpartyFree "оплата ООО Ромашка ИНН 7701234567"
      = some "ИНН 7701234567"
    ∧ extractCounterpartyFree "от ООО Ромашка " = some "ООО Ромашка"
    ∧ extractCounterpartyFree "за услуги" = none
    ∧ (∀ (t : String) (ds : List Char), innSearch t.toList = some ds →
        extractCounterpartyFree t = some ("ИНН " ++ ds.asString))
    ∧ (∀ (t : String) (span : List Char), innSearch t.toList = none →
        orgSearch t.toList = some span →
        extractCounterpartyFree t = some (pystrip span.asString))
    ∧ (∀ t : String, innSearch t.toList = none → orgSearch t.toList = none →
        extractCounterpartyFree t = none) := by
  refine ⟨by decide, by decide, by decide, by decide, ?_, ?_, ?_⟩
  · intro t ds h
    rw [extractCounterpartyFree, h]
  · intro t span h1 h2
    rw [extractCounterpartyFree, h1, h2]
  · intro t h1 h2
    rw [extractCounterpartyFree, h1, h2]

theorem c5_counterparty_cascade_amended_witness :
    extractCounterpartyFree "ИНН 7712345678"
        = some ("ИНН " ++ ("7712345678".toList).asString)
    ∧ extractCounterpartyFree "ИП Иванов"
        = some (pystrip ("ИП Иванов".toList).asString)
    ∧ extractCounterpartyFree "---" = none :=
  ⟨c5_counterparty_cascade_amended.2.2.2.2.1 "ИНН 7712345678" _ (by decide),
   c5_counterparty_cascade_amended.2.2.2.2.2.1 "ИП Иванов" _ (by decide) (by decide),
   c5_counterparty_cascade_amended.2.2.2.2.2.2 "---" (by decide) (by decide)⟩

/-- C8: the stress test is empty unless the periodic obligation is
positive; when it is, every month key with a non-null end balance `b`
reports `after = b - payment`, `shortfall = max 0 (-after)` and
`default_risk = (after < 0)`; in particular balance 200 against
obligation 500 gives `after = -300`, `shortfall = 300`, risk `true`. -/
theorem c8_stress_test :
    (∀ (p : Rat) (bm : List (String × Option Rat)), p ≤ 0 → stressTest p bm = [])
    ∧ (∀ (p : Rat) (bm : List (String × Option Rat)) (m : String) (b : Rat),
        0 < p → (m, some b) ∈ bm →
        (m, { end_balance_after_payment := b - p,
              shortfall := max 0 (-(b - p)),
              default_risk := decide (b - p < 0) : StressEntry }) ∈ stressTest p bm)
    ∧ stressTest 500 [("2024-01", some 200)]
        = [("2024-01", { end_balance_after_payment := -300, shortfall := 300,
                         default_risk := true })] := by
  refine ⟨?_, ?_, ?_⟩
  · intro p bm hp
    rw [stressTest, if_neg]
    rintro ⟨-, h2⟩
    exact absurd h2 (not_lt.mpr hp)
  · intro p bm m b hp hmem
    rw [stressTest, if_pos ⟨ne_of_gt hp, hp⟩]
    rw [List.mem_filterMap]
    refine ⟨(m, some b), hmem, ?_⟩
    have hsh : (if b - p < 0 then -(b - p) else 0) = max 0 (-(b - p)) := by
      rcases lt_or_le (b - p) 0 with h | h
      · rw [if_pos h, max_eq_right (le_of_lt (neg_pos.mpr h))]
      · rw [if_neg (not_lt.mpr h), max_eq_left (neg_nonpos.mpr h)]
    dsimp only
    rw [hsh]
  · rw [stressTest, if_pos (by norm_num)]
    simp only [List.filterMap_cons, List.filterMap_nil]
    norm_num [StressEntry.mk.injEq]

theorem c8_stress_test_witness :
    stressTest (-2) [("m", some 1)] = []
    ∧ ("m", { end_balance_after_payment := (1 : Rat) - 1,
              shortfall := max 0 (-((1 : Rat) - 1)),
              default_risk := decide ((1 : Rat) - 1 < 0) : StressEntry })
        ∈ stressTest 1 [("m", some 1)] :=
  ⟨c8_stress_test.1 (-2) [("m", some 1)] (by norm_num),
   c8_stress_test.2.1 1 [("m", some 1)] "m" 1 (by norm_num) (by simp)⟩

/-- C1 counterexample: fold a single undated transaction with debit 5
from opening 0.  The claim states that transactions without a date are
excluded from the daily map, which would leave the map empty; the code
instead records the running value under the sentinel key
`dt.date.min`. -/
theorem c1_counterexample_undated_in_daily :
    (balFold 0 [mkTxn none (some 5) none none none none]).2 = [(pdateKey pdateMin, 5)]
    ∧ (balFold 0 [mkTxn none (some 5) none none none none]).2 ≠ [] := by
  have h : (balFold 0 [mkTxn none (some 5) none none none none]).2
      = [(pdateKey pdateMin, (0 : Rat) + 5)] := rfl
  rw [h]
  norm_num

/-- C1 (amended): the balance fold starts the running value at the
opening balance; for every appended transaction the running value
becomes the declared balance when it is non-null and is otherwise
incremented by `(debit or 0) - (credit or 0)`; `daily[date]` is set to
the running value for every dated transaction; and a transaction
without a date still updates the running value but is recorded in the
daily map under the sentinel minimum date `dt.date.min` rather than
being excluded. -/
theorem c1_balance_fold_amended :
    (∀ opening : Rat, balFold opening [] = (opening, []))
    ∧ (∀ (opening : Rat) (txns : List Txn) (t : Txn),
        (balFold opening (txns ++ [t])).1
          = t.balance.getD ((balFold opening txns).1 + t.debit.getD 0 - t.credit.getD 0))
    ∧ (∀ (opening : Rat) (txns : List Txn) (t : Txn) (d : PDate), t.date = some d →
        List.lookup (pdateKey d) (balFold opening (txns ++ [t])).2
          = some ((balFold opening (txns ++ [t])).1))
    ∧ (∀ (opening : Rat) (txns : List Txn) (t : Txn), t.date = none →
        List.lookup (pdateKey pdateMin) (balFold opening (txns ++ [t])).2
          = some ((balFold opening (txns ++ [t])).1)) := by
  have hstep : ∀ (opening : Rat) (txns : List Txn) (t : Txn),
      balFold opening (txns ++ [t]) = balStep (balFold opening txns) t := by
    intro opening txns t
    rw [balFold, balFold, List.foldl_append, List.foldl_cons, List.foldl_nil]
  refine ⟨fun _ => rfl, ?_, ?_, ?_⟩
  · intro opening txns t
    rw [hstep, balStep_fst]
  · intro opening txns t d hd
    rw [hstep, balStep_snd]
    have hk : dateKeyT t = pdateKey d := by rw [dateKeyT, hd]; rfl
    rw [hk]
    exact lookup_updAssoc _ _ _
  · intro opening txns t hd
    rw [hstep, balStep_snd]
    have hk : dateKeyT t = pdateKey pdateMin := by rw [dateKeyT, hd]; rfl
    rw [hk]
    exact lookup_updAssoc _ _ _

theorem c1_balance_fold_amended_witness :
    List.lookup (pdateKey ⟨2024, 1, 2⟩)
        (balFold 0 ([] ++ [mkTxn (some ⟨2024, 1, 2⟩) (some 3) none none none none])).2
      = some ((balFold 0 ([] ++ [mkTxn (some ⟨2024, 1, 2⟩) (some 3) none none none none])).1)
    ∧ List.lookup (pdateKey pdateMin)
        (balFold 7 ([] ++ [mkTxn none none (some 2) none none none])).2
      = some ((balFold 7 ([] ++ [mkTxn none none (some 2) none none none])).1) :=
  ⟨c1_balance_fold_amended.2.2.1 0 [] _ ⟨2024, 1, 2⟩ rfl,
   c1_balance_fold_amended.2.2.2 7 [] _ rfl⟩

/-- C4 counterexample: an undated transaction with debit 7 followed by
a dated one with debit 5, no declared balances, opening 0.  The daily
entry at the last (maximum) date is `0 + 7 + 5 = 12`, not
`opening + Σdebit - Σcredit` over the *dated* transactions (`5`): the
undated transaction still moved the running value. -/
theorem c4_counterexample_undated_breaks_identity :
    List.lookup (pdateKey ⟨2024, 1, 1⟩)
        (balFold
          (computeOpening [mkTxn none (some 7) none none none none,
            mkTxn (some ⟨2024, 1, 1⟩) (some 5) none none none none])
          [mkTxn none (some 7) none none none none,
            mkTxn (some ⟨2024, 1, 1⟩) (some 5) none none none none]).2
      ≠ some (computeOpening [mkTxn none (some 7) none none none none,
            mkTxn (some ⟨2024, 1, 1⟩) (some 5) none none none none]
          + specSumDebit ([mkTxn none (some 7) none none none none,
              mkTxn (some ⟨2024, 1, 1⟩) (some 5) none none none none].filter
              (fun t => t.date.isSome))
          - specSumCredit ([mkTxn none (some 7) none none none none,
              mkTxn (some ⟨2024, 1, 1⟩) (some 5) none none none none].filter
              (fun t => t.date.isSome))) := by
  have h1 : List.lookup (pdateKey ⟨2024, 1, 1⟩)
      (balFold
        (computeOpening [mkTxn none (some 7) none none none none,
          mkTxn (some ⟨2024, 1, 1⟩) (some 5) none none none none])
        [mkTxn none (some 7) none none none none,
          mkTxn (some ⟨2024, 1, 1⟩) (some 5) none none none none]).2
      = some ((0 : Rat) + 7 + 5) := rfl
  have h2 : computeOpening [mkTxn none (some 7) none none none none,
        mkTxn (some ⟨2024, 1, 1⟩) (some 5) none none none none]
      + specSumDebit ([mkTxn none (some 7) none none none none,
          mkTxn (some ⟨2024, 1, 1⟩) (some 5) none none none none].filter
          (fun t => t.date.isSome))
      - specSumCredit ([mkTxn none (some 7) none none none none,
          mkTxn (some ⟨2024, 1, 1⟩) (some 5) none none none none].filter
          (fun t => t.date.isSome))
      = (0 : Rat) + ((5 : Rat) + 0) - ((0 : Rat) + 0) := rfl
  rw [h1, h2]
  intro heq
  rw [Option.some_inj] at heq
  norm_num at heq

theorem specSumDebit_nil : specSumDebit [] = 0 := rfl

theorem specSumCredit_nil : specSumCredit [] = 0 := rfl

/-- C4 (amended): for a chronologically sorted transaction sequence
(nulls first, as extraction produces) in which no transaction carries a
declared balance and whose last element is dated `d`, the daily entry
at `d` — which is the maximum date of the sequence — equals
`opening + Σ(debit or 0) - Σ(credit or 0)` over *all* transactions,
undated ones included. -/
theorem c4_reconciliation_amended :
    ∀ (opening : Rat) (txns l : List Txn) (t : Txn) (d : PDate),
      List.Pairwise txnLe txns →
      (∀ u ∈ txns, u.balance = none) →
      txns = l ++ [t] → t.date = some d →
      (List.lookup (pdateKey d) (balFold opening txns).2
          = some (opening + specSumDebit txns - specSumCredit txns)
        ∧ ∀ u ∈ txns, dateKeyT u ≤ pdateKey d) := by
  intro opening txns l t d hsort hbal heq hd
  subst heq
  have hk : dateKeyT t = pdateKey d := by rw [dateKeyT, hd]; rfl
  constructor
  · have hstep : balFold opening (l ++ [t]) = balStep (balFold opening l) t := by
      rw [balFold, balFold, List.foldl_append, List.foldl_cons, List.foldl_nil]
    have hbt : t.balance = none := hbal t (by simp)
    have hfst : (balFold opening l).1 = opening + specSumDebit l - specSumCredit l :=
      foldl_balStep_fst_of_no_balance l (opening, []) (fun u hu => hbal u (by simp [hu]))
    have hcurr : (balStep (balFold opening l) t).1
        = opening + specSumDebit (l ++ [t]) - specSumCredit (l ++ [t]) := by
      rw [balStep_fst, hbt, Option.getD_none, hfst, specSumDebit_append,
        specSumCredit_append, specSumDebit_cons, specSumCredit_cons,
        specSumDebit_nil, specSumCredit_nil]
      ring
    rw [hstep, balStep_snd, hk, lookup_updAssoc, hcurr]
  · intro u hu
    rw [List.mem_append] at hu
    rcases hu with hu | hu
    · have hle : txnLe u t := (List.pairwise_append.mp hsort).2.2 u hu t (by simp)
      rw [← hk]
      exact hle
    · rw [List.mem_singleton] at hu
      subst hu
      rw [← hk]

theorem c4_reconciliation_amended_witness :
    List.lookup (pdateKey ⟨2024, 1, 2⟩)
        (balFold 0 [mkTxn (some ⟨2024, 1, 2⟩) (some 3) (some 1) none none none]).2
      = some (0 + specSumDebit [mkTxn (some ⟨2024, 1, 2⟩) (some 3) (some 1) none none none]
          - specSumCredit [mkTxn (some ⟨2024, 1, 2⟩) (some 3) (some 1) none none none])
    ∧ ∀ u ∈ [mkTxn (some ⟨2024, 1, 2⟩) (some 3) (some 1) none none none],
        dateKeyT u ≤ pdateKey ⟨2024, 1, 2⟩ :=
  c4_reconciliation_amended 0 _ [] _ ⟨2024, 1, 2⟩ (by simp) (by decide) rfl rfl

/-- C9: the opening balance is found by scanning the first five
transactions for a description carrying an opening/incoming marker; the
first marked transaction supplies its declared balance when present and
otherwise its `(debit or 0) - (credit or 0)`; with no marked
transaction among the first five the opening balance is `0`. -/
theorem c9_opening_balance :
    (∀ txns : List Txn, (∀ u ∈ txns.take 5, isOpeningDesc u = false) →
      computeOpening txns = 0)
    ∧ (∀ (txns l rest : List Txn) (t : Txn),
        txns.take 5 = l ++ t :: rest →
        (∀ u ∈ l, isOpeningDesc u = false) →
        isOpeningDesc t = true →
        computeOpening txns
          = match t.balance with
            | some b => b
            | none => t.debit.getD 0 - t.credit.getD 0) := by
  constructor
  · intro txns hnone
    rw [computeOpening, List.find?_eq_none.mpr]
    intro u hu
    rw [hnone u hu]
    exact Bool.false_ne_true
  · intro txns l rest t hsplit hl ht
    rw [computeOpening, hsplit, find?_prefix_none l t rest hl ht]

theorem c9_opening_balance_witness :
    computeOpening
        [mkTxn none none none none none (some "строка"),
         mkTxn none (some 2) (some 7) none none (some "Входящий остаток")]
      = ((2 : Rat)) - 7 := by
  have h := c9_opening_balance.2
    [mkTxn none none none none none (some "строка"),
     mkTxn none (some 2) (some 7) none none (some "Входящий остаток")]
    [mkTxn none none none none none (some "строка")] []
    (mkTxn none (some 2) (some 7) none none (some "Входящий остаток"))
    rfl (by decide) (by decide)
  exact h

/-- C2 counterexample: in the tabular path, a row whose only non-null
field is the zero amount `0` in the assigned debit column is dropped
(the filter uses Python truthiness, and `0.0` is falsy), although the
claim requires every row with at least one non-null field to appear. -/
theorem c2_counterexample_zero_amount_dropped :
    extractTransactionsTab
        { date := none, debit := some 0, credit := none, balance := none,
          counterparty := none, description := none }
        [[Cell.text "0"]] = []
    ∧ (rowFieldsTab
        { date := none, debit := some 0, credit := none, balance := none,
          counterparty := none, description := none }
        [Cell.text "0"]).debit = some 0 := by
  exact ⟨by decide, by decide⟩

/-- C2 (amended): a row is dropped iff every field is Python-falsy —
null, a zero amount, or an empty text; moreover the free-text path
consults only date, debit, credit and counterparty in its drop test (a
line whose only surviving field is its description is dropped there).
Membership in the extraction output is characterized accordingly for
both paths. -/
theorem c2_row_filter_amended :
    (∀ (cm : Colmap) (rows : List (List Cell)) (t : Txn),
      t ∈ extractTransactionsTab cm rows ↔
        ((∃ row, row ∈ rows ∧ rowFieldsTab cm row = t) ∧
         (t.date ≠ none ∨ (∃ x, t.debit = some x ∧ x ≠ 0) ∨
          (∃ x, t.credit = some x ∧ x ≠ 0) ∨ (∃ x, t.balance = some x ∧ x ≠ 0) ∨
          (∃ s, t.counterparty = some s ∧ s ≠ "") ∨
          (∃ s, t.description = some s ∧ s ≠ ""))))
    ∧ (∀ (lines : List String) (t : Txn),
      t ∈ extractTransactionsFree lines ↔
        ((∃ line, line ∈ lines ∧ rowFieldsFree line = t) ∧
         (t.date ≠ none ∨ (∃ x, t.debit = some x ∧ x ≠ 0) ∨
          (∃ x, t.credit = some x ∧ x ≠ 0) ∨
          (∃ s, t.counterparty = some s ∧ s ≠ "")))) := by
  constructor
  · intro cm rows t
    rw [extractTransactionsTab, List.mem_insertionSort, List.mem_filter, List.mem_map,
      keepTab_eq_true]
  · intro lines t
    rw [extractTransactionsFree, List.mem_filter, List.mem_map, keepFree_eq_true]

theorem c2_row_filter_amended_witness :
    rowFieldsFree "деб 5" ∈ extractTransactionsFree ["деб 5"] :=
  (c2_row_filter_amended.2 ["деб 5"] (rowFieldsFree "деб 5")).mpr
    ⟨⟨"деб 5", by simp, rfl⟩, Or.inr (Or.inl ⟨5, by decide, by norm_num⟩)⟩

/-- C6 counterexample: the single-column free-text path returns before
the final sort, so two lines with descending dates come out in input
order, violating the claimed for-every-input ascending ordering. -/
theorem c6_counterexample_free_path_unsorted :
    ¬ List.Pairwise txnLe
        (extractTransactionsFree ["деб 5 15.01.2024", "деб 6 01.01.2024"]) := by
  intro hp
  have hmap : (extractTransactionsFree ["деб 5 15.01.2024", "деб 6 01.01.2024"]).map dateKeyT
      = [20240115, 20240101] := by decide
  have hp2 : List.Pairwise (fun a b : Nat => a ≤ b)
      ((extractTransactionsFree ["деб 5 15.01.2024", "деб 6 01.01.2024"]).map dateKeyT) :=
    List.Pairwise.map dateKeyT (fun a b h => h) hp
  rw [hmap] at hp2
  have := (List.pairwise_cons.mp hp2).1 20240101 (by simp)
  omega

/-- C6 (amended): the tabular path ends in a stable ascending sort by
date with null dates keyed to the minimum date (`dt.date.min`): its
output is sorted, is a permutation of the kept rows, and for every date
key the subsequence with that key keeps the original row order; null
dates receive the minimum key, which bounds every parsed date from
below.  The free-text path, however, returns *before* the sort: its
output is a sublist of the per-line records in input order. -/
theorem c6_sort_amended :
    (∀ (cm : Colmap) (rows : List (List Cell)),
        List.Pairwise txnLe (extractTransactionsTab cm rows))
    ∧ (∀ (cm : Colmap) (rows : List (List Cell)),
        List.Perm (extractTransactionsTab cm rows)
          ((rows.map (rowFieldsTab cm)).filter keepTab))
    ∧ (∀ (cm : Colmap) (rows : List (List Cell)) (k : Nat),
        (extractTransactionsTab cm rows).filter (fun t => decide (dateKeyT t = k))
          = ((rows.map (rowFieldsTab cm)).filter keepTab).filter
              (fun t => decide (dateKeyT t = k)))
    ∧ (∀ t : Txn, t.date = none → dateKeyT t = pdateKey pdateMin)
    ∧ (∀ (s : String) (d : PDate), parseDateText s = some d →
        pdateKey pdateMin ≤ pdateKey d)
    ∧ (∀ lines : List String,
        List.Sublist (extractTransactionsFree lines) (lines.map rowFieldsFree)) := by
  refine ⟨?_, ?_, ?_, ?_, ?_, ?_⟩
  · intro cm rows
    exact List.sorted_insertionSort txnLe _
  · intro cm rows
    exact List.perm_insertionSort txnLe _
  · intro cm rows k
    exact filter_insertionSort_key k _
  · intro t ht
    rw [dateKeyT, ht]
    rfl
  · intro s d hparse
    rw [parseDateText] at hparse
    rcases hsearch : dateSearch s.toList with - | ⟨dd, mm, yy⟩
    · rw [hsearch] at hparse
      exact absurd hparse (by simp)
    · rw [hsearch] at hparse
      unfold strptimeDMY at hparse
      dsimp only at hparse
      split_ifs at hparse with hcond
      · simp only [Bool.and_eq_true, decide_eq_true_eq] at hcond
        rw [Option.some_inj] at hparse
        subst hparse
        rw [pdateKey, pdateKey, pdateMin]
        obtain ⟨⟨⟨⟨h1, h2⟩, h3⟩, h4⟩, h5⟩ := hcond
        simp only
        nlinarith
  · intro lines
    rw [extractTransactionsFree]
    exact List.filter_sublist _

theorem c6_sort_amended_witness :
    dateKeyT (mkTxn none none none none none none) = pdateKey pdateMin
    ∧ pdateKey pdateMin ≤ pdateKey ⟨2024, 1, 15⟩ :=
  ⟨c6_sort_amended.2.2.2.1 (mkTxn none none none none none none) rfl,
   c6_sort_amended.2.2.2.2.1 "15.01.2024" ⟨2024, 1, 15⟩ (by decide)⟩

/-- A NaN cell in the assigned counterparty column is stringified to
`"nan"`, which survives normalization. -/
theorem rowFieldsTab_counterparty_nan (cm : Colmap) (row : List Cell) (i : Nat)
    (hcm : cm.counterparty = some i) (hcell : row.get? i = some Cell.nan) :
    (rowFieldsTab cm row).counterparty = some "nan" := by
  have hg : getCol cm.counterparty row = some Cell.nan := by
    rw [getCol.eq_def, hcm]
    exact hcell
  have hn : normalizeCounterparty (pystr Cell.nan) = some "nan" := by decide
  simp only [rowFieldsTab, hg, hn]

/-- A NaN cell in the assigned description column is stringified to
`"nan"` and truncated to itself. -/
theorem rowFieldsTab_description_nan (cm : Colmap) (row : List Cell) (i : Nat)
    (hcm : cm.description = some i) (hcell : row.get? i = some Cell.nan) :
    (rowFieldsTab cm row).description = some "nan" := by
  have hg : getCol cm.description row = some Cell.nan := by
    rw [getCol.eq_def, hcm]
    exact hcell
  have hs : strTake500 (pystr Cell.nan) = "nan" := by decide
  simp only [rowFieldsTab, hg, Option.map_some', hs]

/-- C10: in the tabular path a NaN cell of an assigned counterparty or
description column is stringified before processing and yields the
literal text `"nan"` for that field instead of null; consequently a
data row whose cells are all empty is still emitted as a transaction
when a description or counterparty column is assigned (and in range),
because the `"nan"` text is truthy in the empty-row filter. -/
theorem c10_nan_row_emitted :
    (∀ (cm : Colmap) (row : List Cell) (i : Nat),
        cm.counterparty = some i → row.get? i = some Cell.nan →
        (rowFieldsTab cm row).counterparty = some "nan")
    ∧ (∀ (cm : Colmap) (row : List Cell) (i : Nat),
        cm.description = some i → row.get? i = some Cell.nan →
        (rowFieldsTab cm row).description = some "nan")
    ∧ (∀ (cm : Colmap) (rows : List (List Cell)) (row : List Cell),
        row ∈ rows → (∀ c ∈ row, c = Cell.nan) →
        ((∃ i, cm.description = some i ∧ i < row.length) ∨
         (∃ i, cm.counterparty = some i ∧ i < row.length)) →
        rowFieldsTab cm row ∈ extractTransactionsTab cm rows) := by
  refine ⟨rowFieldsTab_counterparty_nan, rowFieldsTab_description_nan, ?_⟩
  intro cm rows row hrow hnan hcol
  have hget : ∀ i, i < row.length → row.get? i = some Cell.nan := by
    intro i hi
    rw [List.get?_eq_get hi]
    exact congrArg some (hnan _ (List.get_mem row i hi))
  have hkeep : keepTab (rowFieldsTab cm row) = true := by
    rw [keepTab_eq_true]
    rcases hcol with ⟨i, hd, hi⟩ | ⟨i, hc, hi⟩
    · have hdesc := rowFieldsTab_description_nan cm row i hd (hget i hi)
      right; right; right; right; right
      exact ⟨"nan", hdesc, by decide⟩
    · have hcp := rowFieldsTab_counterparty_nan cm row i hc (hget i hi)
      right; right; right; right; left
      exact ⟨"nan", hcp, by decide⟩
  rw [extractTransactionsTab, List.mem_insertionSort, List.mem_filter]
  exact ⟨List.mem_map_of_mem _ hrow, hkeep⟩

theorem c10_nan_row_emitted_witness :
    (rowFieldsTab ⟨none, none, none, none, some 0, some 1⟩
        [Cell.nan, Cell.nan]).counterparty = some "nan"
    ∧ rowFieldsTab ⟨none, none, none, none, some 0, some 1⟩ [Cell.nan, Cell.nan]
        ∈ extractTransactionsTab ⟨none, none, none, none, some 0, some 1⟩
            [[Cell.nan, Cell.nan]] :=
  ⟨c10_nan_row_emitted.1 _ _ 0 rfl rfl,
   c10_nan_row_emitted.2.2 _ _ _ (by simp) (by decide) (Or.inl ⟨1, rfl, by decide⟩)⟩
